import Mathlib

/-!
Verification of the forecast aggregator in `src/get_weather.py`
(class `Measurements`).

Embedding conventions:
- Python floats are modelled as exact rationals (ℚ); the arithmetic the
  claims are about (sum, division by a count, min, max, rounding to two
  decimal places) is exact on the sample values involved.
- The Python dict `self._forecast` preserves insertion order, so it is
  modelled as an association list `List (String × List ℚ)` where a new
  key is appended at the end and an existing key has its sample list
  extended, exactly like `add_temp`.
- A raising Python computation is modelled with `Option`: `max([])`
  (resp. `min([])`) raises `ValueError`, modelled as `none`; the spec's
  error-taxonomy name for this condition is `EmptySetError`.
- `round(x, 2)` is Python round-half-to-even at two decimal places,
  modelled exactly on ℚ by `roundHalfEven (x * 100) / 100`.
- `to_json` mutates the object (it assigns `forecast_min_temp` and
  `forecast_max_temp` and appends to `forecast_details`) and returns a
  JSON string of four fields; it is modelled as
  `Measurements → Option (Measurements × ForecastDoc)` returning the
  post state and the document whose serialization is returned.
  `sum(temps)/len(temps)` is only reached for day lists created by
  `add_temp`, which are nonempty, so the `len = 0` case (a Python
  `ZeroDivisionError`, ℚ division by zero) is unreachable.
-/

namespace GetWeather

/-- One entry of `forecast_details`: the dict
`\x7b"date": date, "temp": round(avg, 2), "measure_count": measure_count\x7d`. -/
structure Detail where
  date : String
  temp : ℚ
  measure_count : ℕ
deriving DecidableEq

/-- The four-field document serialized by `to_json`. -/
structure ForecastDoc where
  forecast_location : String
  forecast_min_temp : ℚ
  forecast_max_temp : ℚ
  forecast_details : List Detail
deriving DecidableEq

/-- The state of a `Measurements` object. -/
structure Measurements where
  _forecast : List (String × List ℚ)
  forecast_location : String
  forecast_min_temp : ℚ
  forecast_max_temp : ℚ
  forecast_details : List Detail
deriving DecidableEq

/-- Constructor `Measurements.__init__(self, town, country)`. -/
def Measurements.init (town country : String) : Measurements where
  _forecast := []
  forecast_location := town ++ "(" ++ country ++ ")"
  forecast_min_temp := 0
  forecast_max_temp := 0
  forecast_details := []

/-- The dict update performed by `add_temp`: append `temp` to the list of
an existing key, or add the key at the end with a singleton list. -/
def addKey (date : String) (temp : ℚ) : List (String × List ℚ) → List (String × List ℚ)
  | [] => [(date, [temp])]
  | (d, ts) :: rest =>
      if d = date then (d, ts ++ [temp]) :: rest
      else (d, ts) :: addKey date temp rest

/-- Method `Measurements.add_temp(self, date, temp)`. -/
def Measurements.add_temp (m : Measurements) (date : String) (temp : ℚ) : Measurements :=
  { m with _forecast := addKey date temp m._forecast }

/-- Python `max` over a list: raises (`none`) on the empty list. -/
def listMax : List ℚ → Option ℚ
  | [] => none
  | x :: xs => some (xs.foldl max x)

/-- Python `min` over a list: raises (`none`) on the empty list. -/
def listMin : List ℚ → Option ℚ
  | [] => none
  | x :: xs => some (xs.foldl min x)

/-- The list comprehension `[f(temps) for temps in self._forecast.values()]`
where `f` may raise: `none` as soon as one entry raises. -/
def mapOpt (f : List ℚ → Option ℚ) : List (String × List ℚ) → Option (List ℚ)
  | [] => some []
  | p :: rest =>
      match f p.2, mapOpt f rest with
      | some y, some ys => some (y :: ys)
      | _, _ => none

/-- Property `Measurements.max_temp`:
`max([max(temps) for temps in self._forecast.values()])`. -/
def Measurements.max_temp (m : Measurements) : Option ℚ :=
  (mapOpt listMax m._forecast).bind listMax

/-- Property `Measurements.min_temp`:
`min([min(temps) for temps in self._forecast.values()])`. -/
def Measurements.min_temp (m : Measurements) : Option ℚ :=
  (mapOpt listMin m._forecast).bind listMin

/-- Round-half-to-even to the nearest integer, the rounding Python's
built-in `round` uses. -/
def roundHalfEven (x : ℚ) : ℤ :=
  if x - ⌊x⌋ < 1/2 then ⌊x⌋
  else if 1/2 < x - ⌊x⌋ then ⌊x⌋ + 1
  else if ⌊x⌋ % 2 = 0 then ⌊x⌋ else ⌊x⌋ + 1

/-- Python `round(x, 2)`. -/
def round2 (x : ℚ) : ℚ := (roundHalfEven (x * 100) : ℚ) / 100

/-- The body of the `for date, temps in list(self._forecast.items())[1:]`
loop: the appended detail dict for one day. -/
def mkDetail (p : String × List ℚ) : Detail where
  date := p.1
  temp := round2 (p.2.sum / (p.2.length : ℚ))
  measure_count := p.2.length

/-- The details appended by one `to_json` call: one entry per day-key
after the first (`[1:]` skips the first item, "the current day"). -/
def dailySummaries (m : Measurements) : List Detail :=
  (m._forecast.drop 1).map mkDetail

/-- Method `Measurements.to_json(self)`. Evaluates `self.min_temp` first (the
statement `self.forecast_min_temp = self.min_temp` raises before any
mutation when the set is empty), then `self.max_temp`, then appends the
per-day summaries to `self.forecast_details` and returns the document.
Returns the mutated object together with the returned document. -/
def Measurements.to_json (m : Measurements) : Option (Measurements × ForecastDoc) :=
  match m.min_temp, m.max_temp with
  | some mn, some mx =>
      some ({ m with
                forecast_min_temp := mn
                forecast_max_temp := mx
                forecast_details := m.forecast_details ++ dailySummaries m },
            { forecast_location := m.forecast_location
              forecast_min_temp := mn
              forecast_max_temp := mx
              forecast_details := m.forecast_details ++ dailySummaries m })
  | _, _ => none

/-- Observer: the sample list stored for a given day-key
(`self._forecast[date]`, `none` when the key is absent). -/
def findDay (d : String) : List (String × List ℚ) → Option (List ℚ)
  | [] => none
  | (k, ts) :: rest => if k = d then some ts else findDay d rest

/-- Feeding an insertion sequence of `(date, temp)` samples into a state,
like the driver loop `measure.add_temp(date, temp)` does. -/
def buildFrom (m : Measurements) : List (String × ℚ) → Measurements
  | [] => m
  | (d, t) :: rest => buildFrom (m.add_temp d t) rest

/-- All samples of all day-keys, in storage order. -/
def allSamples (m : Measurements) : List ℚ :=
  (m._forecast.map Prod.snd).flatten

/-- Claim C2: on a fresh `Measurements` with no sample added, `min_temp`,
`max_temp` and hence `to_json` all raise (`none`); no sentinel such as
zero is returned. The spec calls this condition `EmptySetError`; the
code raises `ValueError` from `min`/`max` of an empty sequence. -/
theorem empty_set_min_max_raise (town country : String) :
    (Measurements.init town country).min_temp = none ∧
    (Measurements.init town country).max_temp = none ∧
    (Measurements.init town country).to_json = none :=
  ⟨rfl, rfl, rfl⟩

/-- The Scenario A input state: samples ("2024-01-01", 10.0),
("2024-01-01", 20.0), ("2024-01-02", 5.0) inserted into a fresh set. -/
def mA : Measurements :=
  buildFrom (Measurements.init "Paris" "FR")
    [("2024-01-01", 10), ("2024-01-01", 20), ("2024-01-02", 5)]

/-- The document produced by the first `to_json` call on `mA`. -/
def docA : ForecastDoc where
  forecast_location := "Paris(FR)"
  forecast_min_temp := 5
  forecast_max_temp := 20
  forecast_details := [⟨"2024-01-02", 5, 1⟩]

/-- The state of `mA` after the first `to_json` call. -/
def mA' : Measurements where
  _forecast := [("2024-01-01", [10, 20]), ("2024-01-02", [5])]
  forecast_location := "Paris(FR)"
  forecast_min_temp := 5
  forecast_max_temp := 20
  forecast_details := [⟨"2024-01-02", 5, 1⟩]

lemma mA_to_json : mA.to_json = some (mA', docA) := by
  norm_num [mA, docA, mA', buildFrom, Measurements.init, Measurements.add_temp, addKey,
    Measurements.to_json, Measurements.min_temp, Measurements.max_temp, mapOpt,
    listMin, listMax, dailySummaries, mkDetail, round2, roundHalfEven,
    Rat.floor_def, min_def, max_def]
  refine ⟨by decide, by decide, ?_⟩
  rw [if_neg (by decide)]
  norm_num [mkDetail, round2, roundHalfEven, Rat.floor_def]

/-- Claim C8: on the Scenario A insertion sequence, `to_json` yields
globalMinTemp 5.0, globalMaxTemp 20.0 and the single daily summary
(date "2024-01-02", temp 5.0, measure_count 1). -/
theorem scenario_A :
    mA.to_json = some (mA', docA) ∧
    docA.forecast_min_temp = 5 ∧
    docA.forecast_max_temp = 20 ∧
    docA.forecast_details = [⟨"2024-01-02", 5, 1⟩] :=
  ⟨mA_to_json, rfl, rfl, rfl⟩

lemma addKey_spec (d : String) (t : ℚ) (l : List (String × List ℚ)) :
    (findDay d l = none ∧ (addKey d t l).map Prod.fst = l.map Prod.fst ++ [d] ∧
      findDay d (addKey d t l) = some [t])
    ∨ (∃ ts, findDay d l = some ts ∧ (addKey d t l).map Prod.fst = l.map Prod.fst ∧
      findDay d (addKey d t l) = some (ts ++ [t])) := by
  induction l with
  | nil => exact Or.inl ⟨rfl, rfl, by simp [addKey, findDay]⟩
  | cons p rest ih =>
    obtain ⟨k, ts⟩ := p
    by_cases hk : k = d
    · subst hk
      exact Or.inr ⟨ts, by simp [findDay], by simp [addKey], by simp [addKey, findDay]⟩
    · rcases ih with ⟨h1, h2, h3⟩ | ⟨ts0, h1, h2, h3⟩
      · exact Or.inl ⟨by simp [findDay, hk, h1], by simp [addKey, hk, h2],
          by simp [addKey, findDay, hk, h3]⟩
      · exact Or.inr ⟨ts0, by simp [findDay, hk, h1], by simp [addKey, hk, h2],
          by simp [addKey, findDay, hk, h3]⟩

/-- Claim C7: `add_temp` with an absent day-key appends the key (day-key
count grows by exactly 1) and stores the singleton sample list; with a
present day-key it leaves the key list unchanged and appends the new
temperature to that day's samples (duplicates retained, count grows by 1). -/
theorem add_temp_key_behavior (m : Measurements) (d : String) (t : ℚ) :
    (findDay d m._forecast = none ∧
      (m.add_temp d t)._forecast.map Prod.fst = m._forecast.map Prod.fst ++ [d] ∧
      (m.add_temp d t)._forecast.length = m._forecast.length + 1 ∧
      findDay d (m.add_temp d t)._forecast = some [t])
    ∨ (∃ ts, findDay d m._forecast = some ts ∧
      (m.add_temp d t)._forecast.map Prod.fst = m._forecast.map Prod.fst ∧
      (m.add_temp d t)._forecast.length = m._forecast.length ∧
      findDay d (m.add_temp d t)._forecast = some (ts ++ [t]) ∧
      (ts ++ [t]).length = ts.length + 1) := by
  rcases addKey_spec d t m._forecast with ⟨h1, h2, h3⟩ | ⟨ts, h1, h2, h3⟩
  · refine Or.inl ⟨h1, h2, ?_, h3⟩
    have hlen := congrArg List.length h2
    simpa using hlen
  · refine Or.inr ⟨ts, h1, h2, ?_, h3, by simp⟩
    have hlen := congrArg List.length h2
    simpa using hlen

lemma findDay_addKey_ne (d k : String) (t : ℚ) (hk : k ≠ d)
    (l : List (String × List ℚ)) :
    findDay k (addKey d t l) = findDay k l := by
  induction l with
  | nil => simp [addKey, findDay, Ne.symm hk]
  | cons p rest ih =>
    obtain ⟨k0, ts⟩ := p
    by_cases h0 : k0 = d
    · subst h0
      simp [addKey, findDay, Ne.symm hk]
    · simp [addKey, h0, findDay, ih]

/-- Claim C10: `add_temp` only touches the per-day sample mapping:
`forecast_location`, `forecast_min_temp`, `forecast_max_temp` and
`forecast_details` are unchanged, and so is the sample list of every
day-key other than the inserted one. -/
theorem add_temp_frame_effect (m : Measurements) (d : String) (t : ℚ) :
    (m.add_temp d t).forecast_location = m.forecast_location ∧
    (m.add_temp d t).forecast_min_temp = m.forecast_min_temp ∧
    (m.add_temp d t).forecast_max_temp = m.forecast_max_temp ∧
    (m.add_temp d t).forecast_details = m.forecast_details ∧
    ∀ k, k ≠ d → findDay k (m.add_temp d t)._forecast = findDay k m._forecast :=
  ⟨rfl, rfl, rfl, rfl, fun k hk => findDay_addKey_ne d k t hk m._forecast⟩

/-- Witness for the frame theorem: a concrete state, insertion and
unrelated day-key. -/
theorem add_temp_frame_effect_witness :
    ("2024-01-02" : String) ≠ "2024-01-01" ∧
    findDay "2024-01-02" ((mA.add_temp "2024-01-01" 7)._forecast) =
      findDay "2024-01-02" mA._forecast :=
  ⟨by decide, (add_temp_frame_effect mA "2024-01-01" 7).2.2.2.2 "2024-01-02" (by decide)⟩

lemma foldl_max_spec (xs : List ℚ) : ∀ x : ℚ,
    xs.foldl max x ∈ x :: xs ∧ x ≤ xs.foldl max x ∧ ∀ z ∈ xs, z ≤ xs.foldl max x := by
  induction xs with
  | nil => intro x; simp
  | cons y ys ih =>
    intro x
    obtain ⟨hmem, hle, hall⟩ := ih (max x y)
    have hfold : (y :: ys).foldl max x = ys.foldl max (max x y) := rfl
    rw [hfold]
    refine ⟨?_, le_trans (le_max_left x y) hle, ?_⟩
    · rcases List.mem_cons.mp hmem with h | h
      · rcases max_choice x y with hxy | hxy
        · rw [h, hxy]; exact List.mem_cons_self _ _
        · rw [h, hxy]; exact List.mem_cons_of_mem _ (List.mem_cons_self _ _)
      · exact List.mem_cons_of_mem _ (List.mem_cons_of_mem _ h)
    · intro z hz
      rcases List.mem_cons.mp hz with rfl | h
      · exact le_trans (le_max_right x z) hle
      · exact hall z h

lemma foldl_min_spec (xs : List ℚ) : ∀ x : ℚ,
    xs.foldl min x ∈ x :: xs ∧ xs.foldl min x ≤ x ∧ ∀ z ∈ xs, xs.foldl min x ≤ z := by
  induction xs with
  | nil => intro x; simp
  | cons y ys ih =>
    intro x
    obtain ⟨hmem, hle, hall⟩ := ih (min x y)
    have hfold : (y :: ys).foldl min x = ys.foldl min (min x y) := rfl
    rw [hfold]
    refine ⟨?_, le_trans hle (min_le_left x y), ?_⟩
    · rcases List.mem_cons.mp hmem with h | h
      · rcases min_choice x y with hxy | hxy
        · rw [h, hxy]; exact List.mem_cons_self _ _
        · rw [h, hxy]; exact List.mem_cons_of_mem _ (List.mem_cons_self _ _)
      · exact List.mem_cons_of_mem _ (List.mem_cons_of_mem _ h)
    · intro z hz
      rcases List.mem_cons.mp hz with rfl | h
      · exact le_trans hle (min_le_right x z)
      · exact hall z h

lemma listMax_spec (l : List ℚ) (h : l ≠ []) :
    ∃ y, listMax l = some y ∧ y ∈ l ∧ ∀ z ∈ l, z ≤ y := by
  match l with
  | x :: xs =>
    obtain ⟨hmem, hle, hall⟩ := foldl_max_spec xs x
    refine ⟨xs.foldl max x, rfl, hmem, fun z hz => ?_⟩
    rcases List.mem_cons.mp hz with rfl | h2
    · exact hle
    · exact hall z h2

lemma listMin_spec (l : List ℚ) (h : l ≠ []) :
    ∃ y, listMin l = some y ∧ y ∈ l ∧ ∀ z ∈ l, y ≤ z := by
  match l with
  | x :: xs =>
    obtain ⟨hmem, hle, hall⟩ := foldl_min_spec xs x
    refine ⟨xs.foldl min x, rfl, hmem, fun z hz => ?_⟩
    rcases List.mem_cons.mp hz with rfl | h2
    · exact hle
    · exact hall z h2

lemma mapOpt_eq_some (f : List ℚ → Option ℚ) (l : List (String × List ℚ))
    (h : ∀ p ∈ l, ∃ y, f p.2 = some y) :
    ∃ ys, mapOpt f l = some ys ∧ List.Forall₂ (fun p y => f p.2 = some y) l ys := by
  induction l with
  | nil => exact ⟨[], rfl, List.Forall₂.nil⟩
  | cons p rest ih =>
    obtain ⟨y, hy⟩ := h p (List.mem_cons_self _ _)
    obtain ⟨ys, hys, hf⟩ := ih (fun q hq => h q (List.mem_cons_of_mem _ hq))
    exact ⟨y :: ys, by simp [mapOpt, hy, hys], List.Forall₂.cons hy hf⟩

lemma forallTwo_mem_left {R : (String × List ℚ) → ℚ → Prop}
    {l : List (String × List ℚ)} {ys : List ℚ} (h : List.Forall₂ R l ys) :
    ∀ p ∈ l, ∃ y ∈ ys, R p y := by
  induction h with
  | nil => intro p hp; cases hp
  | cons h1 _ ih =>
    intro p hp
    rcases List.mem_cons.mp hp with rfl | hp2
    · exact ⟨_, List.mem_cons_self _ _, h1⟩
    · obtain ⟨y, hy, hr⟩ := ih p hp2
      exact ⟨y, List.mem_cons_of_mem _ hy, hr⟩

lemma forallTwo_mem_right {R : (String × List ℚ) → ℚ → Prop}
    {l : List (String × List ℚ)} {ys : List ℚ} (h : List.Forall₂ R l ys) :
    ∀ y ∈ ys, ∃ p ∈ l, R p y := by
  induction h with
  | nil => intro y hy; cases hy
  | cons h1 _ ih =>
    intro y hy
    rcases List.mem_cons.mp hy with rfl | hy2
    · exact ⟨_, List.mem_cons_self _ _, h1⟩
    · obtain ⟨p, hp, hr⟩ := ih y hy2
      exact ⟨p, List.mem_cons_of_mem _ hp, hr⟩

lemma max_temp_spec (m : Measurements)
    (h1 : ∀ p ∈ m._forecast, p.2 ≠ []) (h2 : m._forecast ≠ []) :
    ∃ mx, m.max_temp = some mx ∧ mx ∈ allSamples m ∧ ∀ s ∈ allSamples m, s ≤ mx := by
  obtain ⟨ys, hys, hf⟩ := mapOpt_eq_some listMax m._forecast
    (fun p hp => ((listMax_spec p.2 (h1 p hp)).imp fun y hy => hy.1))
  have hysne : ys ≠ [] := by
    intro h0
    subst h0
    have hlen := hf.length_eq
    simp at hlen
    exact h2 hlen
  obtain ⟨Y, hY, hYmem, hYmax⟩ := listMax_spec ys hysne
  refine ⟨Y, ?_, ?_, ?_⟩
  · simp [Measurements.max_temp, hys, hY]
  · obtain ⟨p, hp, hR⟩ := forallTwo_mem_right hf Y hYmem
    obtain ⟨y2, hy2, hy2mem, _⟩ := listMax_spec p.2 (h1 p hp)
    have : y2 = Y := by rw [hy2] at hR; exact Option.some.inj hR
    subst this
    exact List.mem_flatten.mpr ⟨p.2, List.mem_map_of_mem _ hp, hy2mem⟩
  · intro s hs
    obtain ⟨l2, hl2, hsl2⟩ := List.mem_flatten.mp hs
    obtain ⟨p, hp, hpl2⟩ := List.mem_map.mp hl2
    obtain ⟨y, hymem, hR⟩ := forallTwo_mem_left hf p hp
    obtain ⟨y2, hy2, _, hy2max⟩ := listMax_spec p.2 (h1 p hp)
    have hEq : y2 = y := by rw [hy2] at hR; exact Option.some.inj hR
    subst hEq
    exact le_trans (hy2max s (hpl2 ▸ hsl2)) (hYmax y2 hymem)

lemma min_temp_spec (m : Measurements)
    (h1 : ∀ p ∈ m._forecast, p.2 ≠ []) (h2 : m._forecast ≠ []) :
    ∃ mn, m.min_temp = some mn ∧ mn ∈ allSamples m ∧ ∀ s ∈ allSamples m, mn ≤ s := by
  obtain ⟨ys, hys, hf⟩ := mapOpt_eq_some listMin m._forecast
    (fun p hp => ((listMin_spec p.2 (h1 p hp)).imp fun y hy => hy.1))
  have hysne : ys ≠ [] := by
    intro h0
    subst h0
    have hlen := hf.length_eq
    simp at hlen
    exact h2 hlen
  obtain ⟨Y, hY, hYmem, hYmin⟩ := listMin_spec ys hysne
  refine ⟨Y, ?_, ?_, ?_⟩
  · simp [Measurements.min_temp, hys, hY]
  · obtain ⟨p, hp, hR⟩ := forallTwo_mem_right hf Y hYmem
    obtain ⟨y2, hy2, hy2mem, _⟩ := listMin_spec p.2 (h1 p hp)
    have : y2 = Y := by rw [hy2] at hR; exact Option.some.inj hR
    subst this
    exact List.mem_flatten.mpr ⟨p.2, List.mem_map_of_mem _ hp, hy2mem⟩
  · intro s hs
    obtain ⟨l2, hl2, hsl2⟩ := List.mem_flatten.mp hs
    obtain ⟨p, hp, hpl2⟩ := List.mem_map.mp hl2
    obtain ⟨y, hymem, hR⟩ := forallTwo_mem_left hf p hp
    obtain ⟨y2, hy2, _, hy2min⟩ := listMin_spec p.2 (h1 p hp)
    have hEq : y2 = y := by rw [hy2] at hR; exact Option.some.inj hR
    subst hEq
    exact le_trans (hYmin y2 hymem) (hy2min s (hpl2 ▸ hsl2))

/-- Claim C3: on a state whose day lists are the nonempty lists built by
`add_temp`, with at least one sample, `min_temp` and `max_temp` are the
minimum and maximum single-sample temperature over the samples of all
day-keys (the first-inserted day included): both values are themselves
samples and they bound every sample. -/
theorem min_max_over_all_samples (m : Measurements)
    (h1 : ∀ p ∈ m._forecast, p.2 ≠ []) (h2 : m._forecast ≠ []) :
    ∃ mn mx, m.min_temp = some mn ∧ m.max_temp = some mx ∧
      mn ∈ allSamples m ∧ mx ∈ allSamples m ∧
      ∀ s ∈ allSamples m, mn ≤ s ∧ s ≤ mx := by
  obtain ⟨mn, hmn, hmnm, hmnb⟩ := min_temp_spec m h1 h2
  obtain ⟨mx, hmx, hmxm, hmxb⟩ := max_temp_spec m h1 h2
  exact ⟨mn, mx, hmn, hmx, hmnm, hmxm, fun s hs => ⟨hmnb s hs, hmxb s hs⟩⟩

/-- A two-day state used as concrete witness input: the extreme sample
sits on the first-inserted ("today", later skipped) day. -/
def mW : Measurements :=
  buildFrom (Measurements.init "a" "b") [("2024-01-01", 100), ("2024-01-02", 5)]

/-- Witness for C3 at `mW`. -/
theorem min_max_over_all_samples_witness :
    (∀ p ∈ mW._forecast, p.2 ≠ []) ∧ mW._forecast ≠ [] ∧
    (∃ mn mx, mW.min_temp = some mn ∧ mW.max_temp = some mx ∧
      mn ∈ allSamples mW ∧ mx ∈ allSamples mW ∧
      ∀ s ∈ allSamples mW, mn ≤ s ∧ s ≤ mx) :=
  ⟨by decide, by decide, min_max_over_all_samples mW (by decide) (by decide)⟩

/-- Claim C5: every individual sample s of a non-empty sample set
satisfies min_temp ≤ s and s ≤ max_temp. -/
theorem sample_between_global_min_max (m : Measurements)
    (h1 : ∀ p ∈ m._forecast, p.2 ≠ []) (s : ℚ) (hs : s ∈ allSamples m) :
    ∃ mn mx, m.min_temp = some mn ∧ m.max_temp = some mx ∧ mn ≤ s ∧ s ≤ mx := by
  have h2 : m._forecast ≠ [] := by
    intro h0
    rw [allSamples, h0] at hs
    cases hs
  obtain ⟨mn, hmn, _, hmnb⟩ := min_temp_spec m h1 h2
  obtain ⟨mx, hmx, _, hmxb⟩ := max_temp_spec m h1 h2
  exact ⟨mn, mx, hmn, hmx, hmnb s hs, hmxb s hs⟩

/-- Witness for C5 at `mW` and the sample 100. -/
theorem sample_between_global_min_max_witness :
    (∀ p ∈ mW._forecast, p.2 ≠ []) ∧ (100 : ℚ) ∈ allSamples mW ∧
    (∃ mn mx, mW.min_temp = some mn ∧ mW.max_temp = some mx ∧
      mn ≤ (100 : ℚ) ∧ (100 : ℚ) ≤ mx) :=
  ⟨by decide, by decide, sample_between_global_min_max mW (by decide) 100 (by decide)⟩

lemma to_json_some (m m' : Measurements) (doc : ForecastDoc)
    (h : m.to_json = some (m', doc)) :
    ∃ mn mx, m.min_temp = some mn ∧ m.max_temp = some mx ∧
      m' = Measurements.mk m._forecast m.forecast_location mn mx
        (m.forecast_details ++ dailySummaries m) ∧
      doc = ForecastDoc.mk m.forecast_location mn mx
        (m.forecast_details ++ dailySummaries m) := by
  cases hmn : m.min_temp with
  | none => simp [Measurements.to_json, hmn] at h
  | some mn =>
    cases hmx : m.max_temp with
    | none => simp [Measurements.to_json, hmn, hmx] at h
    | some mx =>
      simp only [Measurements.to_json, hmn, hmx, Option.some.injEq, Prod.mk.injEq] at h
      exact ⟨mn, mx, rfl, rfl, h.1.symm, h.2.symm⟩

lemma singleton_listMin (d : String) (ts : List ℚ) (m : Measurements)
    (hf : m._forecast = [(d, ts)]) (mn : ℚ) (hmn : m.min_temp = some mn) :
    listMin ts = some mn := by
  rw [Measurements.min_temp, hf] at hmn
  cases hts : listMin ts with
  | none => simp [mapOpt, hts] at hmn
  | some y =>
    simp only [mapOpt, hts, Option.bind_some] at hmn
    simpa [listMin] using hmn

lemma singleton_listMax (d : String) (ts : List ℚ) (m : Measurements)
    (hf : m._forecast = [(d, ts)]) (mx : ℚ) (hmx : m.max_temp = some mx) :
    listMax ts = some mx := by
  rw [Measurements.max_temp, hf] at hmx
  cases hts : listMax ts with
  | none => simp [mapOpt, hts] at hmx
  | some y =>
    simp only [mapOpt, hts, Option.bind_some] at hmx
    simpa [listMax] using hmx

/-- Claim C4: the first `to_json` call (performed with an empty
`forecast_details`, as after construction) reports summaries exactly for
the day-keys after the first in insertion order: the summary dates are
the key list with its first element dropped, the first-inserted key
appears in no summary, and on a single-day state the summary list is
empty while the document's global min/max are still the min/max of that
day's samples. -/
theorem first_day_skipped (m m' : Measurements) (doc : ForecastDoc)
    (hnd : (m._forecast.map Prod.fst).Nodup)
    (hdet : m.forecast_details = [])
    (h : m.to_json = some (m', doc)) :
    doc.forecast_details.map Detail.date = (m._forecast.map Prod.fst).drop 1 ∧
    (∀ p, m._forecast.head? = some p →
      p.1 ∉ doc.forecast_details.map Detail.date) ∧
    (∀ d ts, m._forecast = [(d, ts)] →
      doc.forecast_details = [] ∧
      listMin ts = some doc.forecast_min_temp ∧
      listMax ts = some doc.forecast_max_temp) := by
  obtain ⟨mn, mx, hmn, hmx, hm', hdoc⟩ := to_json_some m m' doc h
  subst hdoc
  have hdates : (m.forecast_details ++ dailySummaries m).map Detail.date =
      (m._forecast.map Prod.fst).drop 1 := by
    rw [hdet]
    show (dailySummaries m).map Detail.date = (m._forecast.map Prod.fst).drop 1
    rw [dailySummaries, List.map_map, ← List.map_drop]
    rfl
  refine ⟨hdates, ?_, ?_⟩
  · intro p hp hmem
    rw [hdates] at hmem
    cases hf : m._forecast with
    | nil => rw [hf] at hp; cases hp
    | cons q rest =>
      rw [hf] at hp
      have hq : q = p := by simpa using hp
      subst hq
      rw [hf] at hnd hmem
      simp only [List.map_cons, List.drop_succ_cons, List.drop_zero] at hmem
      exact (List.nodup_cons.mp hnd).1 hmem
  · intro d ts hf
    refine ⟨?_, ?_, ?_⟩
    · show m.forecast_details ++ dailySummaries m = []
      rw [hdet, dailySummaries, hf]
      rfl
    · exact singleton_listMin d ts m hf mn hmn
    · exact singleton_listMax d ts m hf mx hmx

/-- The single-day state of Scenario B: one sample ("2024-01-01", 15.0). -/
def mB : Measurements :=
  buildFrom (Measurements.init "t" "c") [("2024-01-01", 15)]

/-- State of `mB` after one `to_json` call. -/
def mB' : Measurements where
  _forecast := [("2024-01-01", [15])]
  forecast_location := "t(c)"
  forecast_min_temp := 15
  forecast_max_temp := 15
  forecast_details := []

/-- Document returned by `to_json` on `mB`: empty summary list, global
min and max both 15. -/
def docB : ForecastDoc where
  forecast_location := "t(c)"
  forecast_min_temp := 15
  forecast_max_temp := 15
  forecast_details := []

lemma mB_to_json : mB.to_json = some (mB', docB) := by
  norm_num [mB, docB, mB', buildFrom, Measurements.init, Measurements.add_temp, addKey,
    Measurements.to_json, Measurements.min_temp, Measurements.max_temp, mapOpt,
    listMin, listMax, dailySummaries, mkDetail, round2, roundHalfEven,
    Rat.floor_def, min_def, max_def]
  decide

/-- Witness for C4 at the Scenario B single-day state `mB`. -/
theorem first_day_skipped_witness :
    docB.forecast_details.map Detail.date = (mB._forecast.map Prod.fst).drop 1 ∧
    (∀ p, mB._forecast.head? = some p →
      p.1 ∉ docB.forecast_details.map Detail.date) ∧
    (∀ d ts, mB._forecast = [(d, ts)] →
      docB.forecast_details = [] ∧
      listMin ts = some docB.forecast_min_temp ∧
      listMax ts = some docB.forecast_max_temp) :=
  first_day_skipped mB mB' docB (by decide) (by decide) mB_to_json

/-- The elements of a key list that do not occur in `ks`, in order. -/
def keysNotIn (ks : List String) : List String → List String
  | [] => []
  | k :: rest => if k ∈ ks then keysNotIn ks rest else k :: keysNotIn ks rest

/-- The day-keys of an insertion sequence in first-occurrence order: the
iteration order of a Python dict populated by this sequence. -/
def firstKeys : List (String × ℚ) → List String
  | [] => []
  | (d, _) :: rest => d :: keysNotIn [d] (firstKeys rest)

lemma keysNotIn_nil_keys (x : List String) : keysNotIn [] x = x := by
  induction x with
  | nil => rfl
  | cons k rest ih => simp [keysNotIn, ih]

lemma keysNotIn_append (ks ks2 x : List String) :
    keysNotIn (ks ++ ks2) x = keysNotIn ks (keysNotIn ks2 x) := by
  induction x with
  | nil => rfl
  | cons k rest ih =>
    by_cases h2 : k ∈ ks2
    · simp [keysNotIn, h2, ih]
    · by_cases h1 : k ∈ ks
      · simp [keysNotIn, h1, h2, ih]
      · simp [keysNotIn, h1, h2, ih]

lemma keysNotIn_absorb (ks : List String) (d : String) (hd : d ∈ ks)
    (x : List String) :
    keysNotIn ks (keysNotIn [d] x) = keysNotIn ks x := by
  induction x with
  | nil => rfl
  | cons k rest ih =>
    by_cases hk : k = d
    · subst hk
      simp [keysNotIn, hd, ih]
    · by_cases hks : k ∈ ks
      · simp [keysNotIn, hk, hks, ih]
      · simp [keysNotIn, hk, hks, ih]

lemma addKey_keys_mem (d : String) (t : ℚ) (l : List (String × List ℚ))
    (h : d ∈ l.map Prod.fst) :
    (addKey d t l).map Prod.fst = l.map Prod.fst := by
  induction l with
  | nil => cases h
  | cons p rest ih =>
    obtain ⟨k, ts⟩ := p
    by_cases hk : k = d
    · subst hk
      simp [addKey]
    · have h2 : d ∈ rest.map Prod.fst := by
        rcases List.mem_cons.mp h with h3 | h3
        · exact absurd h3.symm hk
        · exact h3
      simp [addKey, hk, ih h2]

lemma addKey_keys_not_mem (d : String) (t : ℚ) (l : List (String × List ℚ))
    (h : d ∉ l.map Prod.fst) :
    (addKey d t l).map Prod.fst = l.map Prod.fst ++ [d] := by
  induction l with
  | nil => rfl
  | cons p rest ih =>
    obtain ⟨k, ts⟩ := p
    have hk : ¬ k = d := fun h0 => h (by simp [h0])
    have h2 : d ∉ rest.map Prod.fst := fun h0 => h (List.mem_cons_of_mem _ h0)
    simp [addKey, hk, ih h2]

lemma buildFrom_fields (l : List (String × ℚ)) : ∀ m : Measurements,
    (buildFrom m l).forecast_details = m.forecast_details ∧
    (buildFrom m l).forecast_location = m.forecast_location := by
  induction l with
  | nil => intro m; exact ⟨rfl, rfl⟩
  | cons p rest ih =>
    intro m
    obtain ⟨k, t⟩ := p
    exact ih (m.add_temp k t)

lemma buildFrom_keys (l : List (String × ℚ)) : ∀ m : Measurements,
    (buildFrom m l)._forecast.map Prod.fst =
      m._forecast.map Prod.fst ++
        keysNotIn (m._forecast.map Prod.fst) (firstKeys l) := by
  induction l with
  | nil => intro m; simp [buildFrom, firstKeys, keysNotIn]
  | cons p rest ih =>
    intro m
    obtain ⟨d, t⟩ := p
    show (buildFrom (m.add_temp d t) rest)._forecast.map Prod.fst = _
    rw [ih (m.add_temp d t)]
    by_cases hd : d ∈ m._forecast.map Prod.fst
    · have hkeys : (m.add_temp d t)._forecast.map Prod.fst = m._forecast.map Prod.fst :=
        addKey_keys_mem d t m._forecast hd
      rw [hkeys]
      congr 1
      show keysNotIn (m._forecast.map Prod.fst) (firstKeys rest) =
        keysNotIn (m._forecast.map Prod.fst) (d :: keysNotIn [d] (firstKeys rest))
      rw [keysNotIn, if_pos hd, keysNotIn_absorb _ d hd]
    · have hkeys : (m.add_temp d t)._forecast.map Prod.fst =
          m._forecast.map Prod.fst ++ [d] :=
        addKey_keys_not_mem d t m._forecast hd
      rw [hkeys, keysNotIn_append, List.append_assoc]
      congr 1
      show [d] ++ keysNotIn (m._forecast.map Prod.fst) (keysNotIn [d] (firstKeys rest)) =
        keysNotIn (m._forecast.map Prod.fst) (d :: keysNotIn [d] (firstKeys rest))
      rw [keysNotIn, if_neg hd]
      rfl

/-- Claim C6: for every insertion sequence fed into a fresh set, the
summary dates reported by `to_json` are the day-keys in first-insertion
order with the first-inserted key dropped, regardless of the
alphabetical or chronological order of the dates. -/
theorem summaries_in_first_insertion_order (town country : String)
    (l : List (String × ℚ)) (m' : Measurements) (doc : ForecastDoc)
    (h : (buildFrom (Measurements.init town country) l).to_json = some (m', doc)) :
    doc.forecast_details.map Detail.date = (firstKeys l).drop 1 := by
  obtain ⟨mn, mx, hmn, hmx, hm', hdoc⟩ :=
    to_json_some (buildFrom (Measurements.init town country) l) m' doc h
  have hdet : (buildFrom (Measurements.init town country) l).forecast_details = [] :=
    (buildFrom_fields l _).1
  have hkeys : (buildFrom (Measurements.init town country) l)._forecast.map Prod.fst =
      firstKeys l := by
    have hb := buildFrom_keys l (Measurements.init town country)
    simpa [Measurements.init, keysNotIn_nil_keys] using hb
  subst hdoc
  show ((buildFrom (Measurements.init town country) l).forecast_details ++
    dailySummaries (buildFrom (Measurements.init town country) l)).map Detail.date = _
  rw [hdet, List.nil_append, dailySummaries, List.map_map]
  have hcomp : (Detail.date ∘ mkDetail) = (Prod.fst : String × List ℚ → String) := rfl
  rw [hcomp, List.map_drop, hkeys]

/-- The out-of-order insertion sequence from the spec: day "2024-01-03"
samples arrive before day "2024-01-02" samples. -/
def l6 : List (String × ℚ) :=
  [("2024-01-01", 10), ("2024-01-03", 7), ("2024-01-02", 3)]

/-- The state built from `l6`. -/
def m6 : Measurements := buildFrom (Measurements.init "t" "c") l6

/-- State of `m6` after one `to_json` call. -/
def m6' : Measurements where
  _forecast := [("2024-01-01", [10]), ("2024-01-03", [7]), ("2024-01-02", [3])]
  forecast_location := "t(c)"
  forecast_min_temp := 3
  forecast_max_temp := 10
  forecast_details := [⟨"2024-01-03", 7, 1⟩, ⟨"2024-01-02", 3, 1⟩]

/-- Document returned by `to_json` on `m6`: "2024-01-03" is summarized
first, matching insertion order, not calendar order. -/
def doc6 : ForecastDoc where
  forecast_location := "t(c)"
  forecast_min_temp := 3
  forecast_max_temp := 10
  forecast_details := [⟨"2024-01-03", 7, 1⟩, ⟨"2024-01-02", 3, 1⟩]

lemma m6_to_json : m6.to_json = some (m6', doc6) := by
  norm_num [m6, l6, doc6, m6', buildFrom, Measurements.init, Measurements.add_temp, addKey,
    Measurements.to_json, Measurements.min_temp, Measurements.max_temp, mapOpt,
    listMin, listMax, dailySummaries, mkDetail, round2, roundHalfEven,
    Rat.floor_def, min_def, max_def]
  refine ⟨by rw [if_neg (by decide), if_neg (by decide)], by decide, ?_⟩
  rw [if_neg (by decide), if_neg (by decide)]
  norm_num [mkDetail, round2, roundHalfEven, Rat.floor_def]

/-- Witness for C6 on the out-of-order sequence `l6`. -/
theorem summaries_in_first_insertion_order_witness :
    doc6.forecast_details.map Detail.date = (firstKeys l6).drop 1 :=
  summaries_in_first_insertion_order "t" "c" l6 m6' doc6 m6_to_json

/-- State of `mA` after a second consecutive `to_json` call: the summary
of "2024-01-02" has been appended to `forecast_details` a second time. -/
def mA2 : Measurements where
  _forecast := [("2024-01-01", [10, 20]), ("2024-01-02", [5])]
  forecast_location := "Paris(FR)"
  forecast_min_temp := 5
  forecast_max_temp := 20
  forecast_details := [⟨"2024-01-02", 5, 1⟩, ⟨"2024-01-02", 5, 1⟩]

/-- Document returned by the second consecutive `to_json` call on `mA`:
its summary list holds the same entry twice. -/
def docA2 : ForecastDoc where
  forecast_location := "Paris(FR)"
  forecast_min_temp := 5
  forecast_max_temp := 20
  forecast_details := [⟨"2024-01-02", 5, 1⟩, ⟨"2024-01-02", 5, 1⟩]

lemma mA_to_json_second : mA'.to_json = some (mA2, docA2) := by
  norm_num [mA', mA2, docA2, Measurements.to_json, Measurements.min_temp,
    Measurements.max_temp, mapOpt, listMin, listMax, dailySummaries, mkDetail,
    round2, roundHalfEven, Rat.floor_def, min_def, max_def]

/-- Claim C1 counterexample: on the two-day state of Scenario A, the
second consecutive `to_json` call returns a different output than the
first, because the loop appends the daily summaries to
`forecast_details` again instead of rebuilding the list. -/
theorem to_json_not_idempotent :
    mA.to_json = some (mA', docA) ∧ mA'.to_json = some (mA2, docA2) ∧
    docA2 ≠ docA :=
  ⟨mA_to_json, mA_to_json_second, by decide⟩

/-- Claim C1 amended: the output of `to_json` is deterministic in the
state, and a second consecutive call (no intervening `add_temp`) returns
the same location and global min/max; but its `forecast_details` are
those of the first call with the per-day summaries appended once more,
so the two outputs are identical exactly when the summary list is empty,
i.e. when the state holds at most one day-key. -/
theorem to_json_second_call (m m₁ m₂ : Measurements) (d₁ d₂ : ForecastDoc)
    (h₁ : m.to_json = some (m₁, d₁)) (h₂ : m₁.to_json = some (m₂, d₂)) :
    d₂.forecast_location = d₁.forecast_location ∧
    d₂.forecast_min_temp = d₁.forecast_min_temp ∧
    d₂.forecast_max_temp = d₁.forecast_max_temp ∧
    d₂.forecast_details = d₁.forecast_details ++ dailySummaries m ∧
    (d₂ = d₁ ↔ dailySummaries m = []) := by
  obtain ⟨mn, mx, hmn, hmx, hm₁, hd₁⟩ := to_json_some m m₁ d₁ h₁
  subst hm₁
  obtain ⟨mn2, mx2, hmn2, hmx2, hm₂, hd₂⟩ := to_json_some _ m₂ d₂ h₂
  have e1 : mn = mn2 := Option.some.inj (hmn.symm.trans hmn2)
  have e2 : mx = mx2 := Option.some.inj (hmx.symm.trans hmx2)
  subst e1 e2 hd₁ hd₂
  have hds : dailySummaries (Measurements.mk m._forecast m.forecast_location mn mx
      (m.forecast_details ++ dailySummaries m)) = dailySummaries m := rfl
  refine ⟨rfl, rfl, rfl, rfl, ?_⟩
  constructor
  · intro he
    have hd := congrArg ForecastDoc.forecast_details he
    have hlen := congrArg List.length hd
    simp at hlen
    exact hlen
  · intro he
    simp [hds, he]
    exact he

lemma mB_to_json_second : mB'.to_json = some (mB', docB) := by
  norm_num [mB', docB, Measurements.to_json, Measurements.min_temp,
    Measurements.max_temp, mapOpt, listMin, listMax, dailySummaries, mkDetail,
    round2, roundHalfEven, Rat.floor_def, min_def, max_def]

/-- Witness for the amended C1 on the single-day state `mB`, the one case
where two consecutive calls do coincide. -/
theorem to_json_second_call_witness :
    docB.forecast_location = docB.forecast_location ∧
    docB.forecast_min_temp = docB.forecast_min_temp ∧
    docB.forecast_max_temp = docB.forecast_max_temp ∧
    docB.forecast_details = docB.forecast_details ++ dailySummaries mB ∧
    (docB = docB ↔ dailySummaries mB = []) :=
  to_json_second_call mB mB' mB' docB docB mB_to_json mB_to_json_second

lemma roundHalfEven_abs_le (y : ℚ) : |(roundHalfEven y : ℚ) - y| ≤ 1/2 := by
  have h0 : (⌊y⌋ : ℚ) ≤ y := Int.floor_le y
  have h1 : y < (⌊y⌋ : ℚ) + 1 := Int.lt_floor_add_one y
  unfold roundHalfEven
  by_cases hlt : y - ⌊y⌋ < 1/2
  · rw [if_pos hlt, abs_le]
    constructor <;> linarith
  · rw [if_neg hlt]
    push_neg at hlt
    by_cases hgt : 1/2 < y - ⌊y⌋
    · rw [if_pos hgt, abs_le]
      push_cast
      constructor <;> linarith
    · rw [if_neg hgt]
      push_neg at hgt
      by_cases he : ⌊y⌋ % 2 = 0
      · rw [if_pos he, abs_le]
        constructor <;> linarith
      · rw [if_neg he, abs_le]
        push_cast
        constructor <;> linarith

lemma round2_close (x : ℚ) : |round2 x - x| ≤ 1/200 := by
  have h := roundHalfEven_abs_le (x * 100)
  unfold round2
  have heq : (roundHalfEven (x * 100) : ℚ) / 100 - x =
      ((roundHalfEven (x * 100) : ℚ) - x * 100) / 100 := by ring
  rw [heq, abs_div, abs_of_pos (show (0:ℚ) < 100 by norm_num)]
  linarith

/-- Claim C9: each daily summary entry of a first `to_json` call carries
that day's sample count, and a temperature that is an exact multiple of
1/100 (two decimal places) within 1/200 of the day's true average
sum(samples)/count(samples). -/
theorem daily_summary_average_rounded (m m' : Measurements) (doc : ForecastDoc)
    (hdet : m.forecast_details = []) (h : m.to_json = some (m', doc)) :
    List.Forall₂ (fun (p : String × List ℚ) (e : Detail) =>
      e.date = p.1 ∧ e.measure_count = p.2.length ∧
      (∃ k : ℤ, e.temp = (k : ℚ) / 100) ∧
      |e.temp - p.2.sum / (p.2.length : ℚ)| ≤ 1/200)
      (m._forecast.drop 1) doc.forecast_details := by
  obtain ⟨mn, mx, hmn, hmx, hm', hdoc⟩ := to_json_some m m' doc h
  subst hdoc
  show List.Forall₂ _ _ (m.forecast_details ++ dailySummaries m)
  rw [hdet, List.nil_append, dailySummaries, List.forall₂_map_right_iff,
    List.forall₂_same]
  intro p hp
  exact ⟨rfl, rfl, ⟨roundHalfEven (p.2.sum / (p.2.length : ℚ) * 100), rfl⟩,
    round2_close _⟩

/-- Scenario D state: a dummy first ("today") day, then a day whose
samples are 1.111, 1.112 and 1.116. -/
def m9 : Measurements :=
  buildFrom (Measurements.init "t" "c")
    [("2024-01-01", 0), ("2024-01-02", 1111/1000), ("2024-01-02", 1112/1000),
     ("2024-01-02", 1116/1000)]

/-- State of `m9` after one `to_json` call. -/
def m9' : Measurements where
  _forecast := [("2024-01-01", [0]),
    ("2024-01-02", [1111/1000, 1112/1000, 1116/1000])]
  forecast_location := "t(c)"
  forecast_min_temp := 0
  forecast_max_temp := 1116/1000
  forecast_details := [⟨"2024-01-02", 111/100, 3⟩]

/-- Document returned by `to_json` on `m9`: the average 1.113 is rounded
to exactly 1.11 with measure_count 3. -/
def doc9 : ForecastDoc where
  forecast_location := "t(c)"
  forecast_min_temp := 0
  forecast_max_temp := 1116/1000
  forecast_details := [⟨"2024-01-02", 111/100, 3⟩]

lemma m9_to_json : m9.to_json = some (m9', doc9) := by
  norm_num [m9, m9', doc9, buildFrom, Measurements.init, Measurements.add_temp, addKey,
    Measurements.to_json, Measurements.min_temp, Measurements.max_temp, mapOpt,
    listMin, listMax, dailySummaries, mkDetail, round2, roundHalfEven,
    Rat.floor_def, min_def, max_def]
  refine ⟨by decide, by decide, ?_⟩
  rw [if_neg (by decide)]
  norm_num [mkDetail, round2, roundHalfEven, Rat.floor_def]

/-- Witness for C9 on the Scenario D state `m9`, whose summary entry is
exactly (date "2024-01-02", temp 1.11, measure_count 3). -/
theorem daily_summary_average_rounded_witness :
    List.Forall₂ (fun (p : String × List ℚ) (e : Detail) =>
      e.date = p.1 ∧ e.measure_count = p.2.length ∧
      (∃ k : ℤ, e.temp = (k : ℚ) / 100) ∧
      |e.temp - p.2.sum / (p.2.length : ℚ)| ≤ 1/200)
      (m9._forecast.drop 1) doc9.forecast_details ∧
    doc9.forecast_details = [⟨"2024-01-02", 111/100, 3⟩] :=
  ⟨daily_summary_average_rounded m9 m9' doc9 rfl m9_to_json, rfl⟩

end GetWeather
